import Mathlib

/-!
# Verification of the Candidate–Role Fit Engine

Shallow embedding of the core of the AI-Career-Intelligence-Skill-Gap-Analyzer
repository, covering:

* `src/core/skill_gap_analyzer_tfidf.py` — `SkillGapAnalyzerTFIDF`
  (`__init__`, `analyze_gaps`, `_find_matches`, `_generate_explanations`);
* `src/core/job_readiness_scorer.py` — `JobReadinessScorer`
  (`_calculate_skill_score`, `_calculate_experience_score`);
* `src/matcher/role_suitability_predictor.py` — `RoleSuitabilityPredictor`
  (`predict_suitability`, `_generate_recommendations`).

Python floats are embedded as `ℚ`.  The TF-IDF vectorization and the cosine
similarity computed by scikit-learn (an external library, lines 94-120 of the
analyzer) are abstracted as a similarity-matrix parameter `sim : ℕ → ℕ → ℚ`,
exactly the shape in which `_find_matches` and `_generate_explanations`
receive the matrix; universally quantified theorems therefore hold for every
matrix the vectorizer can produce.  Python f-string messages that interpolate
computed values are embedded as inductive constructors carrying those values.
-/

/-- One element of the `matched_skills` list built by `_find_matches`
(lines 218-224 of `skill_gap_analyzer_tfidf.py`): the matched resume/job
skill strings, the cosine similarity, and both indices. -/
structure MatchedPair where
  resume_skill : String
  job_skill : String
  similarity : ℚ
  resume_index : ℕ
  job_index : ℕ
deriving DecidableEq

/-- Lines 197-208: every `(i, j)` cell of the similarity matrix with
`similarity >= self.similarity_threshold` becomes a potential match, generated
in row-major order (outer loop over resume skills, inner over job skills). -/
def potential_matches (resume_skills job_role_skills : List String)
    (sim : ℕ → ℕ → ℚ) (threshold : ℚ) : List MatchedPair :=
  (List.range resume_skills.length).flatMap (fun i =>
    (List.range job_role_skills.length).filterMap (fun j =>
      if threshold ≤ sim i j then
        some { resume_skill := resume_skills.getD i "",
               job_skill := job_role_skills.getD j "",
               similarity := sim i j,
               resume_index := i,
               job_index := j }
      else none))

/-- Stable insertion used to embed line 211,
`potential_matches.sort(key=lambda x: x["similarity"], reverse=True)`:
an element is inserted after every already-placed element of strictly larger
or equal similarity, so earlier-generated pairs stay first on ties, which is
exactly Python's stable descending sort. -/
def insertBySimilarity (m : MatchedPair) : List MatchedPair → List MatchedPair
  | [] => [m]
  | x :: xs =>
    if m.similarity < x.similarity then x :: insertBySimilarity m xs
    else m :: x :: xs

/-- Stable descending sort by similarity (line 211).  A stable sort's output
is uniquely determined by the key and the input order, so insertion sort is
observationally identical to Python's Timsort here. -/
def sortBySimilarityDesc : List MatchedPair → List MatchedPair
  | [] => []
  | x :: xs => insertBySimilarity x (sortBySimilarityDesc xs)

/-- Lines 214-227: greedy acceptance.  A pair is kept when neither its
resume index nor its job index has been consumed by an earlier (higher
similarity) accepted pair. -/
def greedyAccept : List MatchedPair → List ℕ → List ℕ → List MatchedPair
  | [], _, _ => []
  | m :: rest, resumeUsed, jobUsed =>
    if m.resume_index ∉ resumeUsed ∧ m.job_index ∉ jobUsed then
      m :: greedyAccept rest (m.resume_index :: resumeUsed) (m.job_index :: jobUsed)
    else
      greedyAccept rest resumeUsed jobUsed

/-- Embedding of `_find_matches` (lines 172-229): collect the above-threshold cells, sort
by similarity descending (stable), then accept greedily.  The returned
`job_matched_indices` set is recovered as `(find_matches …).map job_index`. -/
def find_matches (resume_skills job_role_skills : List String)
    (sim : ℕ → ℕ → ℚ) (threshold : ℚ) : List MatchedPair :=
  greedyAccept
    (sortBySimilarityDesc (potential_matches resume_skills job_role_skills sim threshold))
    [] []

/-- The three explanation messages `_generate_explanations` can store for a
missing skill (lines 271-289), with the interpolated values of the f-strings
carried as constructor arguments:
* `belowThreshold closest max_sim threshold` — "The closest match is
  '{closest}' with similarity {max_sim}, which is below the threshold of
  {threshold}";
* `notInResume` — "it does not appear in the resume at all, and no similar
  skills were found";
* `algorithmConstraints` — "missing due to matching algorithm constraints"
  (the `else` branch marked "Shouldn't happen" in the source). -/
inductive Explanation where
  | belowThreshold (closest_resume_skill : String) (max_similarity threshold : ℚ)
  | notInResume
  | algorithmConstraints
deriving DecidableEq

/-- Lines 260-268: running maximum over the resume skills of the similarity
to a fixed job column.  Starts at `(0, None)` and updates only on a strictly
greater similarity, so the first maximizer is kept and a non-positive
similarity never sets `closest_resume_skill`. -/
def closest_resume (resume_skills : List String) (sims : ℕ → ℚ) :
    ℚ × Option String :=
  (List.range resume_skills.length).foldl
    (fun acc i =>
      if acc.1 < sims i then (sims i, some (resume_skills.getD i "")) else acc)
    (0, none)

/-- The explanation `_generate_explanations` computes for one missing skill
(lines 257-289).  `job_role_skills.index(missing_skill)` is the first index
of the string in the job list; `if closest_resume_skill:` is Python
truthiness, false for both `None` and the empty string. -/
def explain_missing (resume_skills job_role_skills : List String)
    (sim : ℕ → ℕ → ℚ) (threshold : ℚ) (missing_skill : String) : Explanation :=
  let job_index := job_role_skills.indexOf missing_skill
  let c := closest_resume resume_skills (fun i => sim i job_index)
  if c.1 < threshold then
    match c.2 with
    | some s => if s = "" then .notInResume else .belowThreshold s c.1 threshold
    | none => .notInResume
  else .algorithmConstraints

/-- The `match_details` statistics dictionary (lines 151-159).  The early
return at lines 71-78 carries `match_details = {}`; its consumers read every
key with `dict.get(key, default)` (scorer lines 170-176, predictor line 63),
so the empty dictionary is embedded as the all-default record. -/
structure MatchDetails where
  total_resume_skills : ℕ := 0
  total_job_skills : ℕ := 0
  matched_count : ℕ := 0
  missing_count : ℕ := 0
  extra_count : ℕ := 0
  match_percentage : ℚ := 0
  average_similarity : ℚ := 0
deriving DecidableEq

/-- The dictionary returned by `analyze_gaps` (lines 161-170).  The early
return (lines 71-78) omits the `missing_required` and `missing_preferred`
keys entirely; every consumer reads them with `.get(key, [])` (scorer lines
171-172, predictor lines 61-62), so the missing keys are embedded as `[]`.
`explanations` is a string-keyed dictionary; it is embedded as the
association list produced by the generation loop (for one key the computed
value depends only on the key, so repeated assignment never changes the
observable lookup). -/
structure GapResult where
  matched_skills : List MatchedPair
  missing_skills : List String
  missing_required : List String
  missing_preferred : List String
  extra_skills : List String
  match_details : MatchDetails
  explanations : List (String × Explanation)
deriving DecidableEq

/-- Lines 81-83: a `None` `required_skills` makes every job skill
required. -/
def required_resolved (job_role_skills : List String)
    (required_skills : Option (List String)) : List String :=
  required_skills.getD job_role_skills

/-- Lines 81-86: when `required_skills` is `None` the passed
`preferred_skills` is overwritten with `[]`; a `None` `preferred_skills`
becomes `[]`. -/
def preferred_resolved (required_skills preferred_skills : Option (List String)) :
    List String :=
  if required_skills = none then [] else preferred_skills.getD []

/-- The `job_matched_indices` set returned by `_find_matches`
(line 229), as the job indices of the accepted pairs (only membership in
the set is ever read). -/
def job_matched_indices (resume_skills job_role_skills : List String)
    (sim : ℕ → ℕ → ℚ) (threshold : ℚ) : List ℕ :=
  (find_matches resume_skills job_role_skills sim threshold).map MatchedPair.job_index

/-- Step 5 (lines 128-131): job skills whose index was not matched. -/
def missing_skills_of (resume_skills job_role_skills : List String)
    (sim : ℕ → ℕ → ℚ) (threshold : ℚ) : List String :=
  ((List.range job_role_skills.length).filter
      (fun i => decide (i ∉ job_matched_indices resume_skills job_role_skills sim threshold))).map
    (fun i => job_role_skills.getD i "")

/-- Step 6 (lines 134-138): resume skills whose index was not matched. -/
def extra_skills_of (resume_skills job_role_skills : List String)
    (sim : ℕ → ℕ → ℚ) (threshold : ℚ) : List String :=
  ((List.range resume_skills.length).filter
      (fun i => decide (i ∉ (find_matches resume_skills job_role_skills sim threshold).map
        MatchedPair.resume_index))).map
    (fun i => resume_skills.getD i "")

/-- Embedding of `analyze_gaps` (lines 40-170), with the scikit-learn vectorization
abstracted as the similarity matrix `sim` (see the file header).
Lines 71-78: empty resume or job list short-circuits to the empty-shape
result.  Lines 81-86: required/preferred resolution.  Lines 123-148:
matching, missing/extra identification, categorization, explanations.
Lines 151-159: statistics. -/
def analyze_gaps (resume_skills job_role_skills : List String)
    (required_skills preferred_skills : Option (List String))
    (sim : ℕ → ℕ → ℚ) (threshold : ℚ) : GapResult :=
  if resume_skills = [] ∨ job_role_skills = [] then
    { matched_skills := []
      missing_skills := job_role_skills
      missing_required := []
      missing_preferred := []
      extra_skills := resume_skills
      match_details := {}
      explanations := [] }
  else
    let req := required_resolved job_role_skills required_skills
    let pref := preferred_resolved required_skills preferred_skills
    let matched := find_matches resume_skills job_role_skills sim threshold
    let missing := missing_skills_of resume_skills job_role_skills sim threshold
    let extra := extra_skills_of resume_skills job_role_skills sim threshold
    { matched_skills := matched
      missing_skills := missing
      missing_required := missing.filter (fun s => decide (s ∈ req))
      missing_preferred := missing.filter (fun s => decide (s ∈ pref))
      extra_skills := extra
      match_details :=
        { total_resume_skills := resume_skills.length
          total_job_skills := job_role_skills.length
          matched_count := matched.length
          missing_count := missing.length
          extra_count := extra.length
          match_percentage :=
            if job_role_skills ≠ [] then
              (matched.length : ℚ) / (job_role_skills.length : ℚ) * 100
            else 0
          average_similarity :=
            if matched ≠ [] then
              (matched.map MatchedPair.similarity).sum / (matched.length : ℚ)
            else 0 }
      explanations := missing.map (fun s =>
        (s, explain_missing resume_skills job_role_skills sim threshold s)) }

/-- The `SkillGapAnalyzerTFIDF` object state set up by `__init__`
(lines 28-38): the body only stores `similarity_threshold` (the
`vectorizer`/cache fields are re-created per call and carry no state that
`analyze_gaps` reads before overwriting). -/
structure SkillGapAnalyzerTFIDF where
  similarity_threshold : ℚ
deriving DecidableEq

/-- Embedding of `SkillGapAnalyzerTFIDF.__init__` (lines 28-38).  The body is a plain
assignment with no validation and no `raise` statement; it is embedded in
`Except` to make the absence of any error path a stated fact: construction
always returns `Except.ok` with the given threshold stored verbatim. -/
def SkillGapAnalyzerTFIDF.init (similarity_threshold : ℚ) :
    Except String SkillGapAnalyzerTFIDF :=
  .ok { similarity_threshold := similarity_threshold }

/-- Python's built-in `round` used at `round(score, 2)`: round half to even
(banker's rounding).  This is the integer-result core, applied to the score
scaled by 100. -/
def roundHalfToEven (q : ℚ) : ℤ :=
  if q - ⌊q⌋ < 1/2 then ⌊q⌋
  else if 1/2 < q - ⌊q⌋ then ⌊q⌋ + 1
  else if ⌊q⌋ % 2 = 0 then ⌊q⌋ else ⌊q⌋ + 1

/-- Python `round(x, 2)` on the embedded rationals. -/
def round2 (q : ℚ) : ℚ := (roundHalfToEven (q * 100) : ℚ) / 100

/-- Embedding of `JobReadinessScorer._calculate_skill_score` (lines 155-217 of
`job_readiness_scorer.py`).  `total_required` at lines 186-190 is
`len(missing_required) + len(matched_skills)` because the list comprehension
filter ends in `or True`; `matched_required_count`/`required_score`
(lines 193-194) are computed but never used and are omitted.  The penalty
branch applies only when `missing_required` is non-empty.  The result is
clamped to [0, 100] and then rounded to 2 decimal places (lines 208-217). -/
def calculate_skill_score (skill_gap_results : GapResult) : ℚ :=
  let match_details := skill_gap_results.match_details
  let missing_required := skill_gap_results.missing_required
  let total_job_skills := match_details.total_job_skills
  let matched_count := match_details.matched_count
  if total_job_skills = 0 then 100
  else
    let base_score := (matched_count : ℚ) / (total_job_skills : ℚ) * 100
    let total_required := missing_required.length + skill_gap_results.matched_skills.length
    let skill_score :=
      if 0 < total_required then
        if missing_required ≠ [] then
          max 0 (base_score - min 30 (10 * (missing_required.length : ℚ)))
        else base_score
      else base_score
    round2 (max 0 (min 100 skill_score))

/-- Embedding of `JobReadinessScorer._calculate_experience_score` (lines 219-300).
`self.optimal_experience_years` is the constant 3 set in `__init__`
(line 57).  Negative years are first clamped to 0 (lines 241-242); the
six cases follow in source order; the result is rounded to 2 decimal
places and clamped to [0, 100] (line 298). -/
def calculate_experience_score (experience_years required_years : ℚ) : ℚ :=
  let y := if experience_years < 0 then 0 else experience_years
  let score :=
    if y = 0 then 0
    else if y < required_years then y / required_years * 50
    else if y = required_years then 75
    else if y < 3 then 75 + (y - required_years) / (3 - required_years) * 25
    else if y ≤ 5 then 100
    else max 90 (100 - min 10 ((y - 5) * 2))
  max 0 (min 100 (round2 score))

/-- The piecewise experience function exactly as the specification words it
(claim C7 / spec §4.2), with first-matching-case semantics and negative
years clamped to 0, and with no rounding: 0 at y = 0; (y/r)·50 for
0 < y < r; 75 at y = r; 75 + 25·(y−r)/(3−r) for r < y < 3; 100 for
3 ≤ y ≤ 5; max(90, 100 − min(10, (y−5)·2)) for y > 5.  Used to compare the
source function against the specification. -/
def experience_piecewise_spec (experience_years required_years : ℚ) : ℚ :=
  let y := max 0 experience_years
  if y = 0 then 0
  else if y < required_years then y / required_years * 50
  else if y = required_years then 75
  else if y < 3 then 75 + 25 * (y - required_years) / (3 - required_years)
  else if y ≤ 5 then 100
  else max 90 (100 - min 10 ((y - 5) * 2))

/-- The reason strings built by `RoleSuitabilityPredictor` (lines 98-179 of
`role_suitability_predictor.py`), with the f-string interpolations carried
as constructor arguments. -/
inductive Reason where
  | excellentScore (score : ℚ)
  | goodScore (score : ℚ)
  | moderateScore (score : ℚ)
  | strongSkillMatch (pct : ℚ)
  | goodSkillMatch (pct : ℚ)
  | allRequiredPresent
  | fewRequiredMissing (count : ℕ)
  | matchedSuccessfully (count : ℕ)
  | veryLowScore (score : ℚ)
  | belowThresholdScore (score : ℚ)
  | missingCriticalCount (count : ℕ)
  | criticalGaps (top : List String)
  | missingRequiredList (skills : List String)
  | lowSkillMatch (pct : ℚ)
  | lacksDeployment
  | missingStatistics
  | lacksCloud
  | significantGaps
deriving DecidableEq

/-- Embedding of `_generate_suitability_reasons` (lines 98-131): score band, optional
match-percentage band, missing-required summary, matched-count note. -/
def generate_suitability_reasons (score : ℚ) (missing_required : List String)
    (match_details : MatchDetails) : List Reason :=
  let scoreReason : Reason :=
    if 80 ≤ score then .excellentScore score
    else if 65 ≤ score then .goodScore score
    else .moderateScore score
  let match_pct := match_details.match_percentage
  let pctReasons : List Reason :=
    if 80 ≤ match_pct then [.strongSkillMatch match_pct]
    else if 60 ≤ match_pct then [.goodSkillMatch match_pct]
    else []
  let requiredReasons : List Reason :=
    if missing_required = [] then [.allRequiredPresent]
    else if missing_required.length ≤ 2 then [.fewRequiredMissing missing_required.length]
    else []
  let matchedReasons : List Reason :=
    if 0 < match_details.matched_count then
      [.matchedSuccessfully match_details.matched_count]
    else []
  [scoreReason] ++ pctReasons ++ requiredReasons ++ matchedReasons

/-- Embedding of `_generate_unsuitability_reasons` (lines 133-179): score reason, missing
required skills (with the top-3 list when 3 or more are missing), low match
percentage, the fixed keyword lookups, and the generic fallback appended
when only the score reason was produced. -/
def generate_unsuitability_reasons (score : ℚ) (missing_required : List String)
    (match_details : MatchDetails) : List Reason :=
  let scoreReason : Reason :=
    if score < 35 then .veryLowScore score else .belowThresholdScore score
  let missingReasons : List Reason :=
    if missing_required ≠ [] then
      if 3 ≤ missing_required.length then
        [.missingCriticalCount missing_required.length,
         .criticalGaps (missing_required.take 3)]
      else [.missingRequiredList missing_required]
    else []
  let pctReasons : List Reason :=
    if match_details.match_percentage < 50 then
      [.lowSkillMatch match_details.match_percentage]
    else []
  let kw1 : List Reason :=
    if "Deep Learning" ∈ missing_required ∨ "TensorFlow" ∈ missing_required then
      [.lacksDeployment]
    else []
  let kw2 : List Reason :=
    if "Statistics" ∈ missing_required then [.missingStatistics] else []
  let kw3 : List Reason :=
    if "AWS" ∈ missing_required ∨ "Docker" ∈ missing_required then [.lacksCloud] else []
  let reasons := [scoreReason] ++ missingReasons ++ pctReasons ++ kw1 ++ kw2 ++ kw3
  if reasons.length = 1 then reasons ++ [.significantGaps] else reasons

/-- One element of `best_fit_roles` / `not_suitable_roles`
(lines 71-76 and 82-87). -/
structure SuitabilityVerdict where
  role_name : String
  readiness_score : ℚ
  reasons : List Reason
  description : String
deriving DecidableEq

/-- The recommendation strings of `_generate_recommendations`
(lines 181-211), interpolated values carried as arguments.
`notRecommended` carries `reasons[0]` of the top not-suitable role as an
`Option` (`none` would be Python's `IndexError`; the reasons list is never
empty by construction). -/
inductive Recommendation where
  | bestMatch (role_name : String) (score : ℚ)
  | alsoConsider (role_names : List String)
  | noRolesMeet
  | focusCore
  | notRecommended (role_name : String) (primary : Option Reason)
deriving DecidableEq

/-- Result dictionary of `predict_suitability` (lines 92-96). -/
structure SuitabilityResult where
  best_fit_roles : List SuitabilityVerdict
  not_suitable_roles : List SuitabilityVerdict
  recommendations : List Recommendation
deriving DecidableEq

/-- Stable insertion for line 53-57,
`sorted(readiness_scores.items(), key=lambda x: x[1], reverse=True)`:
stable descending sort on the score component, equal scores keeping
dictionary insertion order. -/
def insertByScore (p : String × ℚ) : List (String × ℚ) → List (String × ℚ)
  | [] => [p]
  | x :: xs => if p.2 < x.2 then x :: insertByScore p xs else p :: x :: xs

/-- Stable descending sort of the role/score pairs (lines 53-57). -/
def sortByScoreDesc : List (String × ℚ) → List (String × ℚ)
  | [] => []
  | x :: xs => insertByScore x (sortByScoreDesc xs)

/-- Embedding of `_generate_recommendations` (lines 181-211): headline best match plus up
to two runner-ups, or the two explanatory entries when no role qualifies;
then the top not-suitable role with its first reason. -/
def generate_recommendations (best_fit_roles not_suitable_roles : List SuitabilityVerdict) :
    List Recommendation :=
  let bestRecs : List Recommendation :=
    match best_fit_roles with
    | [] => [.noRolesMeet, .focusCore]
    | top :: rest =>
      [.bestMatch top.role_name top.readiness_score] ++
        (if rest ≠ [] then
          [.alsoConsider (((best_fit_roles.drop 1).take 2).map SuitabilityVerdict.role_name)]
        else [])
  let unsuitableRecs : List Recommendation :=
    match not_suitable_roles with
    | [] => []
    | top :: _ => [.notRecommended top.role_name top.reasons.head?]
  bestRecs ++ unsuitableRecs

/-- Embedding of `RoleSuitabilityPredictor.predict_suitability` (lines 29-96).
`readiness_scores` is a dictionary embedded as an association list in
insertion order; `skill_gaps.get(role, {})` defaults to the empty dictionary,
whose three read keys default to `[]`/`[]`/`{}`; `role_descriptions.get(role,
'') if role_descriptions else ''` defaults to `""`.  The loop appends each
role to `best_fit_roles` when `score >= threshold`, else to
`not_suitable_roles`, preserving the sorted order. -/
def predict_suitability (readiness_scores : List (String × ℚ))
    (skill_gaps : List (String × GapResult))
    (role_descriptions : Option (List (String × String)))
    (suitability_threshold : ℚ) : SuitabilityResult :=
  let sorted_roles := sortByScoreDesc readiness_scores
  let emptyGap : GapResult :=
    { matched_skills := [], missing_skills := [], missing_required := [],
      missing_preferred := [], extra_skills := [], match_details := {},
      explanations := [] }
  let mkVerdict := fun (suitable : Bool) (p : String × ℚ) =>
    let gap_info := (skill_gaps.lookup p.1).getD emptyGap
    let desc := match role_descriptions with
      | some ds => (ds.lookup p.1).getD ""
      | none => ""
    { role_name := p.1
      readiness_score := p.2
      reasons :=
        if suitable then
          generate_suitability_reasons p.2 gap_info.missing_required gap_info.match_details
        else
          generate_unsuitability_reasons p.2 gap_info.missing_required gap_info.match_details
      description := desc : SuitabilityVerdict }
  let best_fit_roles :=
    (sorted_roles.filter (fun p => decide (suitability_threshold ≤ p.2))).map (mkVerdict true)
  let not_suitable_roles :=
    (sorted_roles.filter (fun p => decide (p.2 < suitability_threshold))).map (mkVerdict false)
  { best_fit_roles := best_fit_roles
    not_suitable_roles := not_suitable_roles
    recommendations := generate_recommendations best_fit_roles not_suitable_roles }

/-- ASCII lowercasing applied by the vectorizer before tokenization
(`lowercase=True`, line 95 of `skill_gap_analyzer_tfidf.py`). -/
def lowerChar (c : Char) : Char :=
  if 'A' ≤ c ∧ c ≤ 'Z' then Char.ofNat (c.toNat + 32) else c

/-- Character class `[a-zA-Z]` of the `token_pattern` at line 98. -/
def isAsciiLetter (c : Char) : Bool :=
  ('a' ≤ c && c ≤ 'z') || ('A' ≤ c && c ≤ 'Z')

/-- Character class `[a-zA-Z0-9]` of the `token_pattern` at line 98. -/
def isWordTail (c : Char) : Bool :=
  isAsciiLetter c || ('0' ≤ c && c ≤ '9')

/-- A regex word character (`\w`), which determines the `\b` boundaries of
the `token_pattern`: letters, digits, underscore. -/
def isWordChar (c : Char) : Bool := isWordTail c || c = '_'

/-- Maximal runs of word characters of a character list; `\b` boundaries are
exactly the edges of these runs.  The accumulator holds the current run
reversed. -/
def wordRuns : List Char → List Char → List (List Char)
  | [], acc => if acc = [] then [] else [acc.reverse]
  | c :: cs, acc =>
    if isWordChar c then wordRuns cs (c :: acc)
    else if acc = [] then wordRuns cs [] else acc.reverse :: wordRuns cs []

/-- Matches of `\b[a-zA-Z][a-zA-Z0-9]*\b` inside one maximal word-character
run: the only `\b` boundaries are the run's ends, so the run yields exactly
one token (itself) when it starts with a letter and contains no underscore,
and none otherwise. -/
def runTokens (r : List Char) : List String :=
  match r with
  | [] => []
  | c :: cs =>
    if isAsciiLetter c && cs.all isWordTail then [String.mk (c :: cs)] else []

/-- The tokens the vectorizer extracts from one skill string: lowercase,
then match `token_pattern` (line 95-98). -/
def tokenize (s : String) : List String :=
  (wordRuns (s.toList.map lowerChar) []).flatMap runTokens

/-- scikit-learn's `TfidfVectorizer.fit_transform`, called at line 105 with
no surrounding `try`/`except`, raises `ValueError("empty vocabulary; perhaps
the documents only contain stop words")` exactly when no document yields a
token under `token_pattern` (word n-grams of range (1, 2) are built from
these tokens, so the vocabulary is empty iff every skill tokenizes to
nothing).  The condition depends only on which strings occur, so it is
evaluated on `resume_skills + job_role_skills` directly; the deduplication
at lines 89-90 cannot change it.  By contrast,
`get_similarity_between_skills` (lines 372-377 of the same file) wraps the
same vectorizer call in `try`/`except` and returns 0.0. -/
def vectorizer_raises_empty_vocabulary (all_skills : List String) : Bool :=
  all_skills.all (fun s => (tokenize s).isEmpty)

/-- A Boolean predicate on matched pairs that is upward closed in the
similarity component — the shape of the threshold tests `_find_matches`
applies. -/
def SimUpwardClosed (p : MatchedPair → Bool) : Prop :=
  ∀ a b : MatchedPair, p a = true → a.similarity ≤ b.similarity → p b = true

/-- Sorted by non-increasing similarity — the state of the potential-match
list after line 211. -/
def SortedDescBySim (l : List MatchedPair) : Prop :=
  l.Pairwise (fun a b => b.similarity ≤ a.similarity)

/-!
## Claim C1 (code bug)

The claim says an empty candidate list yields a result with every role
skill in `missing_required`/`missing_preferred` and a skill sub-score of 0.
The early return of `analyze_gaps` (lines 71-78) omits those keys and
returns `match_details = {}`, so `_calculate_skill_score` reads
`total_job_skills = 0` and returns 100 ("No job skills specified, assuming
perfect match") even though three job skills were specified.
-/

/-- C1: at resume `[]` and three role skills, `analyze_gaps` reports all
three skills missing but leaves `missing_required`/`missing_preferred`
empty and `match_details` defaulted, and the scorer then assigns skill
sub-score 100, not 0. -/
theorem skill_score_of_empty_resume_is_100 :
    analyze_gaps [] ["python", "sql", "aws"] (some ["python", "sql"])
        (some ["aws"]) (fun _ _ => 0) (3/10) =
      { matched_skills := []
        missing_skills := ["python", "sql", "aws"]
        missing_required := []
        missing_preferred := []
        extra_skills := []
        match_details := {}
        explanations := [] } ∧
    calculate_skill_score (analyze_gaps [] ["python", "sql", "aws"]
        (some ["python", "sql"]) (some ["aws"]) (fun _ _ => 0) (3/10)) = 100 := by
  constructor
  · rfl
  · norm_num [analyze_gaps, calculate_skill_score]

/-!
## Claim C5 (corrected)

`__init__` (lines 28-38) contains no validation and no `raise`; there is no
`ConfigurationError` anywhere in the repository.  An out-of-range threshold
is silently accepted, stored, and used by `analyze_gaps`.
-/

/-- C5 counterexample: constructing the analyzer with threshold 1.5 — which
is outside [0, 1] — raises nothing and stores the value unchanged. -/
theorem init_accepts_out_of_range_threshold :
    SkillGapAnalyzerTFIDF.init (3/2) =
      Except.ok { similarity_threshold := 3/2 } ∧
    ¬ ((0:ℚ) ≤ 3/2 ∧ (3/2:ℚ) ≤ 1) := by
  exact ⟨rfl, by norm_num⟩

/-!
## Claim C9 (corrected)

On an empty `readiness_scores` mapping, `predict_suitability` returns empty
best-fit and not-suitable lists, but `_generate_recommendations` (lines
200-202) appends two entries — "No roles meet the suitability threshold"
and "Focus on building core skills before targeting specific roles" — not a
single one.
-/

/-- C9 counterexample: the empty catalog produces exactly the two
explanatory recommendations, so the recommendation list does not have
length 1 as claimed. -/
theorem empty_catalog_two_recommendations :
    predict_suitability [] [] none 50 =
      { best_fit_roles := []
        not_suitable_roles := []
        recommendations := [.noRolesMeet, .focusCore] } ∧
    (predict_suitability [] [] none 50).recommendations.length ≠ 1 := by
  exact ⟨rfl, by decide⟩

/-- C9 amended: for every skill-gap mapping, description table and
threshold, an empty `readiness_scores` yields — without raising — empty
best-fit and not-suitable lists and exactly the two explanatory
recommendations ("no roles meet the threshold" and "focus on core
skills"). -/
theorem predict_empty_catalog_result :
    ∀ (skill_gaps : List (String × GapResult))
      (role_descriptions : Option (List (String × String)))
      (suitability_threshold : ℚ),
      predict_suitability [] skill_gaps role_descriptions suitability_threshold =
        { best_fit_roles := []
          not_suitable_roles := []
          recommendations := [.noRolesMeet, .focusCore] } := by
  intro skill_gaps role_descriptions suitability_threshold
  rfl

/-!
## Claim C6 (code bug)

The claim says `analyze_gaps` never throws, even for degenerate inputs such
as `[""]` or `["###"]`.  When every skill string yields no token, the
uncaught `fit_transform` call at line 105 raises
`ValueError("empty vocabulary")`; the early-return guard at line 71 does not
stop such inputs because the lists are non-empty.
-/

/-- C6: with resume `["###"]` and job `["###"]` (likewise `[""]`/`[""]`),
the non-empty-list guard is passed and the vectorizer is reached with an
empty vocabulary, so `analyze_gaps` raises; a single token-bearing skill
(e.g. `"x"`) removes the failure, matching the intended zero-similarity
treatment of all-zero vectors. -/
theorem empty_vocabulary_reached_by_degenerate_input :
    (["###"] : List String) ≠ [] ∧
    tokenize "###" = [] ∧ tokenize "" = [] ∧
    vectorizer_raises_empty_vocabulary (["###"] ++ ["###"]) = true ∧
    vectorizer_raises_empty_vocabulary ([""] ++ [""]) = true ∧
    vectorizer_raises_empty_vocabulary ([""] ++ ["x"]) = false := by
  decide

/-!
## Claim C7 (corrected)

`_calculate_experience_score` follows the claimed piecewise function but
additionally rounds the result to 2 decimal places (line 298), so the
returned sub-score is the rounded value, not the exact formula value.
-/

/-- C7 counterexample: at 1 year of experience against 3 required years the
formula value is (1/3)·50 = 50/3 = 16.666…, but the code returns the
2-decimal rounding 16.67. -/
theorem experience_score_rounding_counterexample :
    calculate_experience_score 1 3 = 1667/100 ∧
    experience_piecewise_spec 1 3 = 50/3 ∧
    calculate_experience_score 1 3 ≠ experience_piecewise_spec 1 3 := by
  norm_num [calculate_experience_score, experience_piecewise_spec, round2,
    roundHalfToEven]

/-!
## Claim C10 (confirmed)

"Missing" does not imply every similarity is below the threshold: the greedy
matcher can consume the only candidate for a higher-similarity pair.
-/

/-- C10: with one candidate skill similar to both role skills (similarity 1
to the first, 1/2 to the second) and valid threshold 3/10, greedy matching
consumes the candidate for the first role skill, so the second role skill is
reported missing although its best similarity 1/2 is at least the
threshold. -/
theorem missing_skill_despite_threshold_similarity :
    "np" ∈ (analyze_gaps ["py"] ["py", "np"] none none
        (fun _ j => if j = 0 then 1 else 1/2) (3/10)).missing_skills ∧
    (analyze_gaps ["py"] ["py", "np"] none none
        (fun _ j => if j = 0 then 1 else 1/2) (3/10)).matched_skills.map
        MatchedPair.job_index = [0] ∧
    (3/10 : ℚ) ≤ (fun (_ j : ℕ) => if j = 0 then (1:ℚ) else 1/2) 0 1 ∧
    (0:ℚ) ≤ 3/10 ∧ (3/10:ℚ) ≤ 1 := by
  refine ⟨?_, ?_, by norm_num, by norm_num, by norm_num⟩ <;>
    norm_num +decide [analyze_gaps, missing_skills_of, job_matched_indices,
      find_matches, potential_matches, sortBySimilarityDesc, insertBySimilarity,
      greedyAccept, List.range_succ, List.filterMap_cons]

/-!
## Matching infrastructure lemmas
-/

theorem mem_insertBySimilarity {a m : MatchedPair} {l : List MatchedPair} :
    a ∈ insertBySimilarity m l ↔ a = m ∨ a ∈ l := by
  induction l with
  | nil => simp [insertBySimilarity]
  | cons x xs ih =>
    simp only [insertBySimilarity]
    split_ifs
    · simp only [List.mem_cons, ih]
      tauto
    · simp only [List.mem_cons]

theorem mem_sortBySimilarityDesc {a : MatchedPair} {l : List MatchedPair} :
    a ∈ sortBySimilarityDesc l ↔ a ∈ l := by
  induction l with
  | nil => simp [sortBySimilarityDesc]
  | cons x xs ih =>
    simp only [sortBySimilarityDesc, mem_insertBySimilarity, List.mem_cons, ih]

theorem mem_greedyAccept {l : List MatchedPair} {rU jU : List ℕ} {m : MatchedPair} :
    m ∈ greedyAccept l rU jU → m ∈ l := by
  induction l generalizing rU jU with
  | nil => simp [greedyAccept]
  | cons x xs ih =>
    simp only [greedyAccept]
    split_ifs with hx
    · intro h
      rcases List.mem_cons.mp h with h | h
      · exact List.mem_cons.mpr (Or.inl h)
      · exact List.mem_cons.mpr (Or.inr (ih h))
    · intro h
      exact List.mem_cons.mpr (Or.inr (ih h))

theorem greedyAccept_resume_avoid {l : List MatchedPair} {rU jU : List ℕ}
    {m : MatchedPair} (h : m ∈ greedyAccept l rU jU) : m.resume_index ∉ rU := by
  induction l generalizing rU jU with
  | nil => simp [greedyAccept] at h
  | cons x xs ih =>
    simp only [greedyAccept] at h
    split_ifs at h with hx
    · rcases List.mem_cons.mp h with rfl | h
      · exact hx.1
      · intro hmem
        exact ih h (List.mem_cons.mpr (Or.inr hmem))
    · exact ih h

theorem greedyAccept_job_avoid {l : List MatchedPair} {rU jU : List ℕ}
    {m : MatchedPair} (h : m ∈ greedyAccept l rU jU) : m.job_index ∉ jU := by
  induction l generalizing rU jU with
  | nil => simp [greedyAccept] at h
  | cons x xs ih =>
    simp only [greedyAccept] at h
    split_ifs at h with hx
    · rcases List.mem_cons.mp h with rfl | h
      · exact hx.2
      · intro hmem
        exact ih h (List.mem_cons.mpr (Or.inr hmem))
    · exact ih h

theorem greedyAccept_map_resume_nodup (l : List MatchedPair) (rU jU : List ℕ) :
    ((greedyAccept l rU jU).map MatchedPair.resume_index).Nodup := by
  induction l generalizing rU jU with
  | nil => simp [greedyAccept]
  | cons x xs ih =>
    simp only [greedyAccept]
    split_ifs with hx
    · simp only [List.map_cons, List.nodup_cons]
      refine ⟨?_, ih _ _⟩
      intro hmem
      rcases List.mem_map.mp hmem with ⟨m, hm, hidx⟩
      exact greedyAccept_resume_avoid hm (by simp [hidx])
    · exact ih _ _

theorem greedyAccept_map_job_nodup (l : List MatchedPair) (rU jU : List ℕ) :
    ((greedyAccept l rU jU).map MatchedPair.job_index).Nodup := by
  induction l generalizing rU jU with
  | nil => simp [greedyAccept]
  | cons x xs ih =>
    simp only [greedyAccept]
    split_ifs with hx
    · simp only [List.map_cons, List.nodup_cons]
      refine ⟨?_, ih _ _⟩
      intro hmem
      rcases List.mem_map.mp hmem with ⟨m, hm, hidx⟩
      exact greedyAccept_job_avoid hm (by simp [hidx])
    · exact ih _ _

theorem mem_potential_matches {resume_skills job_role_skills : List String}
    {sim : ℕ → ℕ → ℚ} {threshold : ℚ} {m : MatchedPair}
    (h : m ∈ potential_matches resume_skills job_role_skills sim threshold) :
    m.resume_index < resume_skills.length ∧
    m.job_index < job_role_skills.length ∧
    threshold ≤ m.similarity ∧
    m.similarity = sim m.resume_index m.job_index ∧
    m.resume_skill = resume_skills.getD m.resume_index "" ∧
    m.job_skill = job_role_skills.getD m.job_index "" := by
  simp only [potential_matches, List.mem_flatMap, List.mem_filterMap,
    List.mem_range] at h
  obtain ⟨i, hi, j, hj, heq⟩ := h
  by_cases hts : threshold ≤ sim i j
  · rw [if_pos hts] at heq
    cases heq
    exact ⟨hi, hj, hts, rfl, rfl, rfl⟩
  · rw [if_neg hts] at heq
    cases heq

theorem mem_find_matches {resume_skills job_role_skills : List String}
    {sim : ℕ → ℕ → ℚ} {threshold : ℚ} {m : MatchedPair}
    (h : m ∈ find_matches resume_skills job_role_skills sim threshold) :
    m.resume_index < resume_skills.length ∧
    m.job_index < job_role_skills.length ∧
    threshold ≤ m.similarity ∧
    m.similarity = sim m.resume_index m.job_index ∧
    m.resume_skill = resume_skills.getD m.resume_index "" ∧
    m.job_skill = job_role_skills.getD m.job_index "" :=
  mem_potential_matches (mem_sortBySimilarityDesc.mp (mem_greedyAccept h))

/-- Unfolding of `analyze_gaps` on the normal (both lists non-empty) path,
exposing each field of the returned dictionary. -/
theorem analyze_gaps_of_nonempty
    (resume_skills job_role_skills : List String)
    (required_skills preferred_skills : Option (List String))
    (sim : ℕ → ℕ → ℚ) (threshold : ℚ)
    (hr : resume_skills ≠ []) (hj : job_role_skills ≠ []) :
    analyze_gaps resume_skills job_role_skills required_skills preferred_skills
        sim threshold =
      { matched_skills := find_matches resume_skills job_role_skills sim threshold
        missing_skills := missing_skills_of resume_skills job_role_skills sim threshold
        missing_required :=
          (missing_skills_of resume_skills job_role_skills sim threshold).filter
            (fun s => decide (s ∈ required_resolved job_role_skills required_skills))
        missing_preferred :=
          (missing_skills_of resume_skills job_role_skills sim threshold).filter
            (fun s => decide (s ∈ preferred_resolved required_skills preferred_skills))
        extra_skills := extra_skills_of resume_skills job_role_skills sim threshold
        match_details :=
          { total_resume_skills := resume_skills.length
            total_job_skills := job_role_skills.length
            matched_count := (find_matches resume_skills job_role_skills sim threshold).length
            missing_count := (missing_skills_of resume_skills job_role_skills sim threshold).length
            extra_count := (extra_skills_of resume_skills job_role_skills sim threshold).length
            match_percentage :=
              if job_role_skills ≠ [] then
                ((find_matches resume_skills job_role_skills sim threshold).length : ℚ) /
                  (job_role_skills.length : ℚ) * 100
              else 0
            average_similarity :=
              if find_matches resume_skills job_role_skills sim threshold ≠ [] then
                ((find_matches resume_skills job_role_skills sim threshold).map
                  MatchedPair.similarity).sum /
                  ((find_matches resume_skills job_role_skills sim threshold).length : ℚ)
              else 0 }
        explanations :=
          (missing_skills_of resume_skills job_role_skills sim threshold).map (fun s =>
            (s, explain_missing resume_skills job_role_skills sim threshold s)) } := by
  have h : ¬ (resume_skills = [] ∨ job_role_skills = []) := by
    simp [hr, hj]
  simp only [analyze_gaps]
  rw [if_neg h]

/-!
## Claim C3 (confirmed)

The matching returned by `analyze_gaps` is one-to-one: no resume index and
no job index occurs in two matched pairs.
-/

/-- C3: for every input to `analyze_gaps` — both skill lists, both optional
categorization lists, every similarity matrix and threshold — the resume
indices of the matched pairs are pairwise distinct and so are the job
indices. -/
theorem analyze_gaps_one_to_one
    (resume_skills job_role_skills : List String)
    (required_skills preferred_skills : Option (List String))
    (sim : ℕ → ℕ → ℚ) (threshold : ℚ) :
    ((analyze_gaps resume_skills job_role_skills required_skills
        preferred_skills sim threshold).matched_skills.map
        MatchedPair.resume_index).Nodup ∧
    ((analyze_gaps resume_skills job_role_skills required_skills
        preferred_skills sim threshold).matched_skills.map
        MatchedPair.job_index).Nodup := by
  by_cases h : resume_skills = [] ∨ job_role_skills = []
  · simp only [analyze_gaps, if_pos h]
    simp
  · push_neg at h
    rw [analyze_gaps_of_nonempty _ _ _ _ _ _ h.1 h.2]
    exact ⟨greedyAccept_map_resume_nodup _ _ _, greedyAccept_map_job_nodup _ _ _⟩

/-!
## Claim C2 (corrected)

`missing_required` and `missing_preferred` are two independent membership
filters over `missing_skills` (lines 141-142), so a skill present in both
the required and the preferred list lands in **both** — not only in
`missing_required` — and a missing skill present in neither list appears in
neither.  The partition of the role skills into matched and missing does
hold at the index level.
-/

/-- C2 counterexample: role skill "x" is both required and preferred and is
missing; it is classified in `missing_preferred` as well as
`missing_required`, contradicting "classified only as missing_required". -/
theorem missing_both_required_and_preferred :
    (analyze_gaps ["a"] ["x"] (some ["x"]) (some ["x"]) (fun _ _ => 0)
        (3/10)).missing_required = ["x"] ∧
    (analyze_gaps ["a"] ["x"] (some ["x"]) (some ["x"]) (fun _ _ => 0)
        (3/10)).missing_preferred = ["x"] := by
  constructor <;>
    norm_num +decide [analyze_gaps, missing_skills_of, job_matched_indices,
      find_matches, potential_matches, sortBySimilarityDesc, insertBySimilarity,
      greedyAccept, required_resolved, preferred_resolved, List.range_succ,
      List.filterMap_cons]

/-- C2 amended: on the normal path the job indices of matched pairs are
distinct and in range; the missing skills are exactly the job skills at the
unmatched indices (an index-level partition); every role skill string is a
matched job skill or a missing skill; and `missing_required` /
`missing_preferred` are exactly the missing skills belonging to the resolved
required / preferred lists — so a skill in both lists is classified as both,
and a missing skill in neither is classified in neither. -/
theorem analyze_gaps_missing_partition
    (resume_skills job_role_skills : List String)
    (required_skills preferred_skills : Option (List String))
    (sim : ℕ → ℕ → ℚ) (threshold : ℚ)
    (hr : resume_skills ≠ []) (hj : job_role_skills ≠ [])
    (res : GapResult)
    (hres : res = analyze_gaps resume_skills job_role_skills required_skills
      preferred_skills sim threshold) :
    (res.matched_skills.map MatchedPair.job_index).Nodup ∧
    (∀ j ∈ res.matched_skills.map MatchedPair.job_index,
      j < job_role_skills.length) ∧
    (∀ j, j < job_role_skills.length →
      j ∉ res.matched_skills.map MatchedPair.job_index →
      job_role_skills.getD j "" ∈ res.missing_skills) ∧
    (∀ s ∈ res.missing_skills, ∃ j, j < job_role_skills.length ∧
      j ∉ res.matched_skills.map MatchedPair.job_index ∧
      job_role_skills.getD j "" = s) ∧
    (∀ s ∈ job_role_skills,
      s ∈ res.matched_skills.map MatchedPair.job_skill ∨
      s ∈ res.missing_skills) ∧
    (∀ s, s ∈ res.missing_required ↔
      s ∈ res.missing_skills ∧
      s ∈ required_resolved job_role_skills required_skills) ∧
    (∀ s, s ∈ res.missing_preferred ↔
      s ∈ res.missing_skills ∧
      s ∈ preferred_resolved required_skills preferred_skills) := by
  subst hres
  rw [analyze_gaps_of_nonempty _ _ _ _ _ _ hr hj]
  refine ⟨greedyAccept_map_job_nodup _ _ _, ?_, ?_, ?_, ?_, ?_, ?_⟩
  · intro j hjmem
    rcases List.mem_map.mp hjmem with ⟨m, hm, rfl⟩
    exact (mem_find_matches hm).2.1
  · intro j hjlen hnot
    simp only [missing_skills_of, List.mem_map, List.mem_filter, List.mem_range,
      decide_eq_true_eq]
    exact ⟨j, ⟨hjlen, hnot⟩, rfl⟩
  · intro s hs
    simp only [missing_skills_of, List.mem_map, List.mem_filter, List.mem_range,
      decide_eq_true_eq] at hs
    rcases hs with ⟨j, ⟨hjlen, hnot⟩, rfl⟩
    exact ⟨j, hjlen, hnot, rfl⟩
  · intro s hs
    rcases List.mem_iff_get.mp hs with ⟨⟨j, hjlen⟩, rfl⟩
    by_cases hmem : j ∈ (find_matches resume_skills job_role_skills sim
        threshold).map MatchedPair.job_index
    · left
      rcases List.mem_map.mp hmem with ⟨m, hm, hmj⟩
      have hskill := (mem_find_matches hm).2.2.2.2.2
      refine List.mem_map.mpr ⟨m, hm, ?_⟩
      rw [hskill, hmj]
      simp [List.getElem?_eq_getElem hjlen]
    · right
      simp only [missing_skills_of, List.mem_map, List.mem_filter, List.mem_range,
        decide_eq_true_eq]
      refine ⟨j, ⟨hjlen, hmem⟩, ?_⟩
      simp [List.getElem?_eq_getElem hjlen]
  · intro s
    simp [List.mem_filter]
  · intro s
    simp [List.mem_filter]

/-!
## Claim C4 infrastructure: sorting, filtering and greedy length
-/

theorem sortedDesc_insertBySimilarity {m : MatchedPair} {l : List MatchedPair}
    (hl : SortedDescBySim l) : SortedDescBySim (insertBySimilarity m l) := by
  induction l with
  | nil =>
    simp [insertBySimilarity, SortedDescBySim]
  | cons x xs ih =>
    rcases List.pairwise_cons.mp hl with ⟨hx, hxs⟩
    simp only [insertBySimilarity]
    split_ifs with hms
    · refine List.pairwise_cons.mpr ⟨?_, ih hxs⟩
      intro z hz
      rcases mem_insertBySimilarity.mp hz with rfl | hz
      · exact le_of_lt hms
      · exact hx z hz
    · refine List.pairwise_cons.mpr ⟨?_, hl⟩
      intro z hz
      rcases List.mem_cons.mp hz with rfl | hz
      · exact le_of_not_lt hms
      · exact le_trans (hx z hz) (le_of_not_lt hms)

theorem sortedDesc_sortBySimilarityDesc (l : List MatchedPair) :
    SortedDescBySim (sortBySimilarityDesc l) := by
  induction l with
  | nil => simp [sortBySimilarityDesc, SortedDescBySim]
  | cons x xs ih => exact sortedDesc_insertBySimilarity ih

theorem insertBySimilarity_of_all_le {m : MatchedPair} {l : List MatchedPair}
    (h : ∀ z ∈ l, z.similarity ≤ m.similarity) :
    insertBySimilarity m l = m :: l := by
  cases l with
  | nil => rfl
  | cons x xs =>
    simp only [insertBySimilarity]
    rw [if_neg]
    exact not_lt_of_le (h x (List.mem_cons_self x xs))

theorem filter_insertBySimilarity {p : MatchedPair → Bool}
    (hp : SimUpwardClosed p) {m : MatchedPair} {l : List MatchedPair}
    (hl : SortedDescBySim l) :
    (insertBySimilarity m l).filter p =
      if p m then insertBySimilarity m (l.filter p) else l.filter p := by
  induction l with
  | nil =>
    by_cases hpm : p m = true
    · simp [insertBySimilarity, hpm]
    · simp [insertBySimilarity, hpm]
  | cons x xs ih =>
    rcases List.pairwise_cons.mp hl with ⟨hx, hxs⟩
    by_cases hms : m.similarity < x.similarity
    · by_cases hpx : p x = true
      · by_cases hpm : p m = true
        · simp [insertBySimilarity, hms, List.filter_cons, hpx, hpm, ih hxs]
        · simp [insertBySimilarity, hms, List.filter_cons, hpx, hpm, ih hxs]
      · by_cases hpm : p m = true
        · exact absurd (hp m x hpm (le_of_lt hms)) hpx
        · simp [insertBySimilarity, hms, List.filter_cons, hpx, hpm, ih hxs]
    · have hall : ∀ z ∈ (x :: xs).filter p, z.similarity ≤ m.similarity := by
        intro z hz
        rcases List.mem_cons.mp (List.mem_of_mem_filter hz) with rfl | hzxs
        · exact le_of_not_lt hms
        · exact le_trans (hx z hzxs) (le_of_not_lt hms)
      by_cases hpm : p m = true
      · rw [if_pos hpm, insertBySimilarity_of_all_le hall]
        simp [insertBySimilarity, hms, List.filter_cons, hpm]
      · rw [if_neg hpm]
        simp [insertBySimilarity, hms, List.filter_cons, hpm]

theorem sortBySimilarityDesc_filter {p : MatchedPair → Bool}
    (hp : SimUpwardClosed p) (l : List MatchedPair) :
    sortBySimilarityDesc (l.filter p) = (sortBySimilarityDesc l).filter p := by
  induction l with
  | nil => rfl
  | cons x xs ih =>
    simp only [List.filter_cons, sortBySimilarityDesc]
    rw [filter_insertBySimilarity hp (sortedDesc_sortBySimilarityDesc xs)]
    by_cases hpx : p x = true
    · simp [hpx, sortBySimilarityDesc, ih]
    · simp [hpx, ih]

theorem sorted_filter_eq_self_append {p : MatchedPair → Bool}
    (hp : SimUpwardClosed p) {l : List MatchedPair} (hl : SortedDescBySim l) :
    ∃ rest, l = l.filter p ++ rest := by
  induction l with
  | nil => exact ⟨[], rfl⟩
  | cons x xs ih =>
    rcases List.pairwise_cons.mp hl with ⟨hx, hxs⟩
    cases hpx : p x with
    | true =>
      rcases ih hxs with ⟨rest, hrest⟩
      refine ⟨rest, ?_⟩
      simp only [List.filter_cons, hpx, if_pos]
      rw [List.cons_append, ← hrest]
    | false =>
      refine ⟨x :: xs, ?_⟩
      have hnil : (x :: xs).filter p = [] := by
        rw [List.filter_eq_nil_iff]
        intro z hz
        rcases List.mem_cons.mp hz with rfl | hzxs
        · simp [hpx]
        · intro hpz
          exact absurd (hp z x hpz (hx z hzxs)) (by simp [hpx])
      rw [hnil, List.nil_append]

theorem greedyAccept_length_le_append (l1 l2 : List MatchedPair) (rU jU : List ℕ) :
    (greedyAccept l1 rU jU).length ≤ (greedyAccept (l1 ++ l2) rU jU).length := by
  induction l1 generalizing rU jU with
  | nil => simp [greedyAccept]
  | cons x xs ih =>
    simp only [List.cons_append, greedyAccept]
    split_ifs with hx
    · simpa using ih _ _
    · exact ih _ _

theorem filterMap_threshold_filter (f : ℕ → MatchedPair) (s : ℕ → ℚ)
    (hsim : ∀ j, (f j).similarity = s j) {t1 t2 : ℚ} (h : t1 ≤ t2)
    (M : List ℕ) :
    (M.filterMap (fun j => if t1 ≤ s j then some (f j) else none)).filter
        (fun m => decide (t2 ≤ m.similarity)) =
      M.filterMap (fun j => if t2 ≤ s j then some (f j) else none) := by
  induction M with
  | nil => rfl
  | cons j M ihM =>
    simp only [List.filterMap_cons]
    by_cases h1 : t1 ≤ s j
    · by_cases h2 : t2 ≤ s j
      · simp [h1, h2, List.filter_cons, hsim, ihM]
      · simp [h1, h2, List.filter_cons, hsim, ihM]
    · have h2 : ¬ t2 ≤ s j := fun hc => h1 (le_trans h hc)
      simp [h1, h2, ihM]

theorem potential_matches_filter_threshold
    (resume_skills job_role_skills : List String) (sim : ℕ → ℕ → ℚ)
    {t1 t2 : ℚ} (h : t1 ≤ t2) :
    (potential_matches resume_skills job_role_skills sim t1).filter
        (fun m => decide (t2 ≤ m.similarity)) =
      potential_matches resume_skills job_role_skills sim t2 := by
  unfold potential_matches
  induction List.range resume_skills.length with
  | nil => simp
  | cons i L ih =>
    simp only [List.flatMap_cons, List.filter_append, ih]
    congr 1
    exact filterMap_threshold_filter
      (fun j => { resume_skill := resume_skills.getD i "",
                  job_skill := job_role_skills.getD j "",
                  similarity := sim i j, resume_index := i, job_index := j })
      (fun j => sim i j) (fun j => rfl) h _

theorem find_matches_length_antitone
    (resume_skills job_role_skills : List String) (sim : ℕ → ℕ → ℚ)
    {t1 t2 : ℚ} (h : t1 ≤ t2) :
    (find_matches resume_skills job_role_skills sim t2).length ≤
      (find_matches resume_skills job_role_skills sim t1).length := by
  have hp : SimUpwardClosed (fun m => decide (t2 ≤ m.similarity)) := by
    intro a b ha hab
    simp only [decide_eq_true_eq] at ha ⊢
    exact le_trans ha hab
  have hpot := potential_matches_filter_threshold resume_skills job_role_skills sim h
  have hsort : sortBySimilarityDesc
      (potential_matches resume_skills job_role_skills sim t2) =
      (sortBySimilarityDesc
        (potential_matches resume_skills job_role_skills sim t1)).filter
        (fun m => decide (t2 ≤ m.similarity)) := by
    rw [← hpot, sortBySimilarityDesc_filter hp]
  obtain ⟨rest, hrest⟩ := sorted_filter_eq_self_append hp
    (sortedDesc_sortBySimilarityDesc
      (potential_matches resume_skills job_role_skills sim t1))
  unfold find_matches
  rw [hsort]
  have hle := greedyAccept_length_le_append
    ((sortBySimilarityDesc
      (potential_matches resume_skills job_role_skills sim t1)).filter
      (fun m => decide (t2 ≤ m.similarity))) rest [] []
  rw [← hrest] at hle
  exact hle

/-!
## Claim C4 (confirmed)

Raising the similarity threshold never increases `matched_count`.
-/

/-- C4: for every pair of skill lists, every similarity matrix, and every
pair of thresholds `t1 ≤ t2` in [0, 1], the `matched_count` reported by
`analyze_gaps` at threshold `t2` is at most the one reported at `t1`. -/
theorem analyze_gaps_matched_count_antitone
    (resume_skills job_role_skills : List String)
    (required_skills preferred_skills : Option (List String))
    (sim : ℕ → ℕ → ℚ) {t1 t2 : ℚ}
    (h0 : 0 ≤ t1) (h12 : t1 ≤ t2) (h1 : t2 ≤ 1) :
    (analyze_gaps resume_skills job_role_skills required_skills
        preferred_skills sim t2).match_details.matched_count ≤
    (analyze_gaps resume_skills job_role_skills required_skills
        preferred_skills sim t1).match_details.matched_count := by
  by_cases hcase : resume_skills = [] ∨ job_role_skills = []
  · simp [analyze_gaps, hcase]
  · push_neg at hcase
    rw [analyze_gaps_of_nonempty _ _ _ _ _ _ hcase.1 hcase.2,
      analyze_gaps_of_nonempty _ _ _ _ _ _ hcase.1 hcase.2]
    exact find_matches_length_antitone _ _ _ h12

/-- C4 witness: thresholds 3/10 ≤ 7/10 inside [0, 1] at a concrete input. -/
theorem analyze_gaps_matched_count_antitone_witness :
    (0:ℚ) ≤ 3/10 ∧ (3/10:ℚ) ≤ 7/10 ∧ (7/10:ℚ) ≤ 1 ∧
    (analyze_gaps ["py"] ["sql"] none none (fun _ _ => 1/2)
        (7/10)).match_details.matched_count ≤
      (analyze_gaps ["py"] ["sql"] none none (fun _ _ => 1/2)
        (3/10)).match_details.matched_count :=
  ⟨by norm_num, by norm_num, by norm_num,
    analyze_gaps_matched_count_antitone ["py"] ["sql"] none none
      (fun _ _ => 1/2) (by norm_num) (by norm_num) (by norm_num)⟩

/-!
## Rounding bounds
-/

theorem roundHalfToEven_nonneg {q : ℚ} (h : 0 ≤ q) : 0 ≤ roundHalfToEven q := by
  unfold roundHalfToEven
  have hfl : (0:ℤ) ≤ ⌊q⌋ := by
    exact_mod_cast Int.le_floor.mpr (by exact_mod_cast h)
  split_ifs <;> omega

theorem roundHalfToEven_le {q : ℚ} {n : ℤ} (h : q ≤ (n:ℚ)) :
    roundHalfToEven q ≤ n := by
  unfold roundHalfToEven
  have hfl : ⌊q⌋ ≤ n := by
    have := Int.floor_le_floor h
    simpa using this
  have hne : 1/2 < q - (⌊q⌋:ℚ) → ⌊q⌋ < n := by
    intro hgt
    rcases lt_or_eq_of_le hfl with hlt | heq
    · exact hlt
    · exfalso
      rw [heq] at hgt
      have : q - (n:ℚ) ≤ 0 := by linarith
      linarith
  have heq : ¬ (q - (⌊q⌋:ℚ) < 1/2) → ¬ (1/2 < q - (⌊q⌋:ℚ)) → ⌊q⌋ < n := by
    intro hnlt hngt
    have hhalf : q - (⌊q⌋:ℚ) = 1/2 := le_antisymm (not_lt.mp hngt) (not_lt.mp hnlt)
    rcases lt_or_eq_of_le hfl with hlt | heqn
    · exact hlt
    · exfalso
      rw [heqn] at hhalf
      have : q - (n:ℚ) ≤ 0 := by linarith
      linarith
  split_ifs with h1 h2 h3
  · exact hfl
  · have := hne h2
    omega
  · have := heq h1 h2
    omega
  · have := heq h1 h2
    omega

theorem round2_nonneg {q : ℚ} (h : 0 ≤ q) : 0 ≤ round2 q := by
  unfold round2
  have : (0:ℤ) ≤ roundHalfToEven (q * 100) :=
    roundHalfToEven_nonneg (by positivity)
  positivity

theorem round2_le_100 {q : ℚ} (h : q ≤ 100) : round2 q ≤ 100 := by
  unfold round2
  have h1 : q * 100 ≤ ((10000:ℤ):ℚ) := by push_cast; linarith
  have h2 : roundHalfToEven (q * 100) ≤ 10000 := roundHalfToEven_le h1
  have h3 : ((roundHalfToEven (q * 100)):ℚ) ≤ 10000 := by exact_mod_cast h2
  linarith

theorem round2_clamp_eq {q : ℚ} (h0 : 0 ≤ q) (h100 : q ≤ 100) :
    max 0 (min 100 (round2 q)) = round2 q := by
  rw [min_eq_right (round2_le_100 h100), max_eq_right (round2_nonneg h0)]

/-!
## Claim C5 amended theorem
-/

theorem potential_matches_eq_nil_of_high_threshold
    (resume_skills job_role_skills : List String) (sim : ℕ → ℕ → ℚ)
    {t : ℚ} (ht : 1 < t) (hb : ∀ i j, sim i j ≤ 1) :
    potential_matches resume_skills job_role_skills sim t = [] := by
  unfold potential_matches
  rw [List.flatMap_eq_nil_iff]
  intro i _
  rw [List.filterMap_eq_nil_iff]
  intro j _
  rw [if_neg]
  intro hts
  exact absurd (le_trans hts (hb i j)) (not_le.mpr ht)

/-- C5 amended: `__init__` never raises — **every** threshold, inside or
outside [0, 1], negative included, is silently accepted and stored
unchanged — and an out-of-range threshold is then used as-is: a stored
threshold above 1 makes `analyze_gaps` match nothing for any similarity
matrix bounded by 1 (cosine similarities of non-negative vectors). -/
theorem init_stores_any_threshold_and_uses_it (t : ℚ) :
    SkillGapAnalyzerTFIDF.init t = Except.ok { similarity_threshold := t } ∧
    (1 < t →
      ∀ (resume_skills job_role_skills : List String)
        (required_skills preferred_skills : Option (List String))
        (sim : ℕ → ℕ → ℚ), (∀ i j, sim i j ≤ 1) →
        (analyze_gaps resume_skills job_role_skills required_skills
          preferred_skills sim t).matched_skills = []) := by
  refine ⟨rfl, ?_⟩
  intro ht resume_skills job_role_skills required_skills preferred_skills sim hb
  by_cases hcase : resume_skills = [] ∨ job_role_skills = []
  · simp [analyze_gaps, hcase]
  · push_neg at hcase
    rw [analyze_gaps_of_nonempty _ _ _ _ _ _ hcase.1 hcase.2]
    show find_matches resume_skills job_role_skills sim t = []
    unfold find_matches
    rw [potential_matches_eq_nil_of_high_threshold _ _ _ ht hb]
    rfl

/-- C5 amended witness: acceptance and storage instantiated at an in-range
threshold (3/10), a negative threshold (-1/2) and an above-range threshold
(3/2), and the no-match consequence of the stored 3/2 at a concrete input
with all similarities 1. -/
theorem init_stores_any_threshold_and_uses_it_witness :
    SkillGapAnalyzerTFIDF.init (3/10) =
      Except.ok { similarity_threshold := 3/10 } ∧
    SkillGapAnalyzerTFIDF.init (-1/2) =
      Except.ok { similarity_threshold := -1/2 } ∧
    SkillGapAnalyzerTFIDF.init (3/2) =
      Except.ok { similarity_threshold := 3/2 } ∧
    (1:ℚ) < 3/2 ∧
    (∀ (i j : ℕ), (fun (_ _ : ℕ) => (1:ℚ)) i j ≤ 1) ∧
    (analyze_gaps ["a"] ["b"] none none (fun _ _ => 1)
      (3/2)).matched_skills = [] :=
  ⟨(init_stores_any_threshold_and_uses_it (3/10)).1,
    (init_stores_any_threshold_and_uses_it (-1/2)).1,
    (init_stores_any_threshold_and_uses_it (3/2)).1,
    by norm_num, fun i j => le_refl 1,
    (init_stores_any_threshold_and_uses_it (3/2)).2 (by norm_num)
      ["a"] ["b"] none none (fun _ _ => 1) (fun i j => le_refl 1)⟩

/-- C2 amended witness: the partition facts at a concrete input. -/
theorem analyze_gaps_missing_partition_witness :
    (["a"] : List String) ≠ [] ∧ (["x"] : List String) ≠ [] ∧
    (∀ s, s ∈ (analyze_gaps ["a"] ["x"] (some ["x"]) (some ["x"])
        (fun _ _ => 0) (3/10)).missing_required ↔
      s ∈ (analyze_gaps ["a"] ["x"] (some ["x"]) (some ["x"])
        (fun _ _ => 0) (3/10)).missing_skills ∧
      s ∈ required_resolved ["x"] (some ["x"])) := by
  refine ⟨by decide, by decide, ?_⟩
  exact (analyze_gaps_missing_partition ["a"] ["x"] (some ["x"]) (some ["x"])
    (fun _ _ => 0) (3/10) (by decide) (by decide) _ rfl).2.2.2.2.2.1

/-- C7 amended: for every years value `y` (negatives clamped to 0) and
required years `r > 0`, the experience sub-score equals the claimed
piecewise function **rounded half-to-even to 2 decimal places**; the final
clamp to [0, 100] never fires because every branch value already lies in
[0, 100]. -/
theorem calculate_experience_score_eq_round2_spec
    (experience_years required_years : ℚ) (hr : 0 < required_years) :
    calculate_experience_score experience_years required_years =
      round2 (experience_piecewise_spec experience_years required_years) := by
  simp only [calculate_experience_score, experience_piecewise_spec]
  have hy : (if experience_years < 0 then (0:ℚ) else experience_years) =
      max 0 experience_years := by
    rcases le_or_lt 0 experience_years with h | h
    · rw [if_neg (not_lt.mpr h), max_eq_right h]
    · rw [if_pos h, max_eq_left h.le]
  rw [hy]
  set z := max 0 experience_years with hzdef
  have hz0 : 0 ≤ z := le_max_left 0 experience_years
  have hround0 : round2 0 = 0 := by norm_num [round2, roundHalfToEven]
  by_cases h1 : z = 0
  · rw [if_pos h1, if_pos h1, hround0]
    norm_num
  · rw [if_neg h1, if_neg h1]
    have hzpos : 0 < z := lt_of_le_of_ne hz0 (Ne.symm h1)
    by_cases h2 : z < required_years
    · rw [if_pos h2, if_pos h2]
      apply round2_clamp_eq
      · positivity
      · have hlt : z / required_years < 1 := (div_lt_one hr).mpr h2
        nlinarith
    · rw [if_neg h2, if_neg h2]
      by_cases h3 : z = required_years
      · rw [if_pos h3, if_pos h3]
        apply round2_clamp_eq <;> norm_num
      · rw [if_neg h3, if_neg h3]
        by_cases h4 : z < 3
        · rw [if_pos h4, if_pos h4]
          have hrz : required_years < z :=
            lt_of_le_of_ne (not_lt.mp h2) (Ne.symm h3)
          have hr3 : required_years < 3 := lt_trans hrz h4
          have hden : 0 < 3 - required_years := by linarith
          have hfrac0 : 0 < (z - required_years) / (3 - required_years) := by
            apply div_pos <;> linarith
          have hfrac1 : (z - required_years) / (3 - required_years) < 1 :=
            (div_lt_one hden).mpr (by linarith)
          have hsame : 75 + (z - required_years) / (3 - required_years) * 25 =
              75 + 25 * (z - required_years) / (3 - required_years) := by
            ring
          rw [hsame]
          have hform : 75 + 25 * (z - required_years) / (3 - required_years) =
              75 + 25 * ((z - required_years) / (3 - required_years)) := by
            ring
          rw [hform]
          apply round2_clamp_eq
          · nlinarith
          · nlinarith
        · rw [if_neg h4, if_neg h4]
          by_cases h5 : z ≤ 5
          · rw [if_pos h5]
            apply round2_clamp_eq <;> norm_num
          · rw [if_neg h5]
            have hmin0 : 0 ≤ min 10 ((z - 5) * 2) := by
              apply le_min
              · norm_num
              · nlinarith [not_le.mp h5]
            apply round2_clamp_eq
            · have h90 : (0:ℚ) ≤ 90 := by norm_num
              exact le_trans h90 (le_max_left _ _)
            · apply max_le
              · norm_num
              · linarith

/-- C7 amended witness: the boundary case y = r = 2 with r > 0. -/
theorem calculate_experience_score_eq_round2_spec_witness :
    (0:ℚ) < 2 ∧
    calculate_experience_score 2 2 = round2 (experience_piecewise_spec 2 2) :=
  ⟨by norm_num, calculate_experience_score_eq_round2_spec 2 2 (by norm_num)⟩

/-!
## Claim C8: characterization of the closest-match fold
-/

theorem closest_resume_foldl_fst_le (resume_skills : List String) (sims : ℕ → ℚ)
    (L : List ℕ) (acc : ℚ × Option String) :
    acc.1 ≤ (L.foldl (fun acc i =>
      if acc.1 < sims i then (sims i, some (resume_skills.getD i "")) else acc)
      acc).1 := by
  induction L generalizing acc with
  | nil => exact le_refl _
  | cons j L ih =>
    simp only [List.foldl_cons]
    refine le_trans ?_ (ih _)
    by_cases h : acc.1 < sims j
    · rw [if_pos h]
      exact le_of_lt h
    · rw [if_neg h]

theorem closest_resume_foldl_ge (resume_skills : List String) (sims : ℕ → ℚ)
    (L : List ℕ) (acc : ℚ × Option String) :
    ∀ i ∈ L, sims i ≤ (L.foldl (fun acc i =>
      if acc.1 < sims i then (sims i, some (resume_skills.getD i "")) else acc)
      acc).1 := by
  induction L generalizing acc with
  | nil =>
    intro i h
    simp at h
  | cons j L ih =>
    intro i hi
    simp only [List.foldl_cons]
    rcases List.mem_cons.mp hi with rfl | hiL
    · refine le_trans ?_ (closest_resume_foldl_fst_le _ _ _ _)
      by_cases h : acc.1 < sims i
      · rw [if_pos h]
      · rw [if_neg h]
        exact not_lt.mp h
    · exact ih _ i hiL

theorem closest_resume_foldl_attained (resume_skills : List String)
    (sims : ℕ → ℚ) (L : List ℕ) (acc : ℚ × Option String) :
    (L.foldl (fun acc i =>
      if acc.1 < sims i then (sims i, some (resume_skills.getD i "")) else acc)
      acc) = acc ∨
    ∃ i ∈ L, (L.foldl (fun acc i =>
        if acc.1 < sims i then (sims i, some (resume_skills.getD i "")) else acc)
        acc).1 = sims i ∧
      (L.foldl (fun acc i =>
        if acc.1 < sims i then (sims i, some (resume_skills.getD i "")) else acc)
        acc).2 = some (resume_skills.getD i "") := by
  induction L generalizing acc with
  | nil => exact Or.inl rfl
  | cons j L ih =>
    simp only [List.foldl_cons]
    rcases ih (if acc.1 < sims j then (sims j, some (resume_skills.getD j ""))
        else acc) with heq | ⟨i, hiL, h1, h2⟩
    · by_cases h : acc.1 < sims j
      · right
        refine ⟨j, List.mem_cons_self j L, ?_, ?_⟩
        · rw [heq, if_pos h]
        · rw [heq, if_pos h]
      · left
        rw [heq, if_neg h]
    · right
      exact ⟨i, List.mem_cons_of_mem _ hiL, h1, h2⟩

theorem closest_resume_fst_nonneg (resume_skills : List String) (sims : ℕ → ℚ) :
    0 ≤ (closest_resume resume_skills sims).1 :=
  closest_resume_foldl_fst_le resume_skills sims _ (0, none)

theorem closest_resume_fst_ge (resume_skills : List String) (sims : ℕ → ℚ)
    {i : ℕ} (hi : i < resume_skills.length) :
    sims i ≤ (closest_resume resume_skills sims).1 :=
  closest_resume_foldl_ge resume_skills sims _ (0, none) i
    (List.mem_range.mpr hi)

theorem closest_resume_attained (resume_skills : List String) (sims : ℕ → ℚ) :
    closest_resume resume_skills sims = (0, none) ∨
    ∃ i, i < resume_skills.length ∧
      (closest_resume resume_skills sims).1 = sims i ∧
      (closest_resume resume_skills sims).2 = some (resume_skills.getD i "") := by
  rcases closest_resume_foldl_attained resume_skills sims
      (List.range resume_skills.length) (0, none) with h | ⟨i, hiL, h1, h2⟩
  · exact Or.inl h
  · exact Or.inr ⟨i, List.mem_range.mp hiL, h1, h2⟩

/-!
## Claim C8 (corrected)

The explanation entry for a missing skill reports the closest candidate
skill and its similarity only when that similarity is **below** the
threshold; when the best similarity reaches the threshold (the greedy
matcher consumed the candidate) the entry is the generic
"algorithm constraints" message carrying no similarity, and when there are
no candidate skills the early return produces an **empty** explanation map
rather than an explicit statement.
-/

/-- C8 counterexample: role skill "b" is missing with best similarity 6/10
above threshold 3/10; its explanation entry is the generic
`algorithmConstraints` message and no entry reports the similarity 6/10. -/
theorem explanation_missing_similarity_counterexample :
    (analyze_gaps ["a"] ["a", "b"] none none
        (fun _ j => if j = 0 then 1 else 6/10) (3/10)).explanations =
      [("b", Explanation.algorithmConstraints)] ∧
    ("b", Explanation.belowThreshold "a" (6/10) (3/10)) ∉
      (analyze_gaps ["a"] ["a", "b"] none none
        (fun _ j => if j = 0 then 1 else 6/10) (3/10)).explanations := by
  have h : (analyze_gaps ["a"] ["a", "b"] none none
      (fun _ j => if j = 0 then 1 else 6/10) (3/10)).explanations =
      [("b", Explanation.algorithmConstraints)] := by
    norm_num +decide [analyze_gaps, missing_skills_of, job_matched_indices,
      find_matches, potential_matches, sortBySimilarityDesc, insertBySimilarity,
      greedyAccept, explain_missing, closest_resume, List.range_succ,
      List.filterMap_cons, List.indexOf_cons, List.foldl_cons]
  refine ⟨h, ?_⟩
  rw [h]
  simp

/-- C8 amended: on the normal path the explanation map has an entry for
every missing skill; the recorded running maximum bounds every candidate
similarity to that skill (taken at the first index of the skill string in
the role list); when that maximum is below the threshold the entry either
reports a closest candidate skill attaining the maximum together with the
threshold, or states the skill does not appear in the resume at all; when
the maximum reaches the threshold the entry is the generic
algorithm-constraints message with no similarity; and with no candidate
skills the explanation map is empty. -/
theorem explanations_report_closest_similarity
    (resume_skills job_role_skills : List String)
    (required_skills preferred_skills : Option (List String))
    (sim : ℕ → ℕ → ℚ) (threshold : ℚ)
    (hr : resume_skills ≠ []) (hj : job_role_skills ≠ []) :
    (∀ s ∈ (analyze_gaps resume_skills job_role_skills required_skills
        preferred_skills sim threshold).missing_skills,
      (s, explain_missing resume_skills job_role_skills sim threshold s) ∈
        (analyze_gaps resume_skills job_role_skills required_skills
          preferred_skills sim threshold).explanations ∧
      (∀ i, i < resume_skills.length →
        sim i (job_role_skills.indexOf s) ≤
          (closest_resume resume_skills
            (fun i => sim i (job_role_skills.indexOf s))).1) ∧
      (threshold ≤ (closest_resume resume_skills
          (fun i => sim i (job_role_skills.indexOf s))).1 →
        explain_missing resume_skills job_role_skills sim threshold s =
          Explanation.algorithmConstraints) ∧
      ((closest_resume resume_skills
          (fun i => sim i (job_role_skills.indexOf s))).1 < threshold →
        explain_missing resume_skills job_role_skills sim threshold s =
            Explanation.notInResume ∨
          ∃ i, i < resume_skills.length ∧
            sim i (job_role_skills.indexOf s) =
              (closest_resume resume_skills
                (fun i => sim i (job_role_skills.indexOf s))).1 ∧
            explain_missing resume_skills job_role_skills sim threshold s =
              Explanation.belowThreshold (resume_skills.getD i "")
                (closest_resume resume_skills
                  (fun i => sim i (job_role_skills.indexOf s))).1
                threshold)) ∧
    (∀ (job2 : List String) (req2 pref2 : Option (List String))
      (sim2 : ℕ → ℕ → ℚ) (t2 : ℚ),
      (analyze_gaps [] job2 req2 pref2 sim2 t2).explanations = []) := by
  constructor
  · intro s hs
    have hs' : s ∈ missing_skills_of resume_skills job_role_skills sim
        threshold := by
      rw [analyze_gaps_of_nonempty _ _ _ _ _ _ hr hj] at hs
      exact hs
    refine ⟨?_, ?_, ?_, ?_⟩
    · rw [analyze_gaps_of_nonempty _ _ _ _ _ _ hr hj]
      exact List.mem_map.mpr ⟨s, hs', rfl⟩
    · intro i hi
      exact closest_resume_fst_ge _ _ hi
    · intro ht
      simp only [explain_missing]
      rw [if_neg (not_lt.mpr ht)]
    · intro hlt
      simp only [explain_missing]
      rw [if_pos hlt]
      rcases closest_resume_attained resume_skills
          (fun i => sim i (job_role_skills.indexOf s)) with hnone | ⟨i, hi, h1, h2⟩
      · rw [hnone]
        exact Or.inl rfl
      · rw [h2]
        by_cases hemp : resume_skills.getD i "" = ""
        · left
          simp only [List.getD_eq_getElem?_getD] at hemp
          simp [hemp]
        · right
          refine ⟨i, hi, h1.symm, ?_⟩
          simp only [List.getD_eq_getElem?_getD] at hemp
          simp [hemp]
  · intro job2 req2 pref2 sim2 t2
    rfl

/-- C8 amended witness: a concrete missing skill whose explanation entry is
present in the returned map. -/
theorem explanations_report_closest_similarity_witness :
    (["a"] : List String) ≠ [] ∧ (["b"] : List String) ≠ [] ∧
    ("b", explain_missing ["a"] ["b"] (fun _ _ => 0) (3/10) "b") ∈
      (analyze_gaps ["a"] ["b"] none none (fun _ _ => 0) (3/10)).explanations := by
  refine ⟨by decide, by decide, ?_⟩
  have hmem : "b" ∈ (analyze_gaps ["a"] ["b"] none none (fun _ _ => 0)
      (3/10)).missing_skills := by
    norm_num +decide [analyze_gaps, missing_skills_of, job_matched_indices,
      find_matches, potential_matches, sortBySimilarityDesc, insertBySimilarity,
      greedyAccept, List.range_succ, List.filterMap_cons]
  exact ((explanations_report_closest_similarity ["a"] ["b"] none none
    (fun _ _ => 0) (3/10) (by decide) (by decide)).1 "b" hmem).1
